import Mathlib

set_option maxHeartbeats 1000000

set_option maxRecDepth 100000

deriving instance DecidableEq for Except

/-!
Shallow embedding of `extract_dungeon_bin.py` (the dungeon.bin extractor).

Bytes are modelled as `List Nat` (each entry in 0..255), Python `str` values as
Lean `String`.  The decoded text alphabet is code points below 128 plus U+FFFD
(the `errors="replace"` decoding), so Python `str.strip` / `str.splitlines` /
`re` behaviour is embedded for exactly that alphabet.  Python exceptions are
modelled as explicit error values: every `raise ValueError(...)` site gets its
own constructor, and the `IndexError` raised by an out-of-range `lines[cursor]`
access is a separate constructor, because the driver catches only `ValueError`.
-/

/-- Characters stripped by Python `str.strip()` over the alphabet produced by
ascii-with-replacement decoding: the ASCII whitespace code points
9..13, 28..31 and 32. -/
def isPyWs (c : Char) : Bool :=
  c.toNat == 9 || c.toNat == 10 || c.toNat == 11 || c.toNat == 12 || c.toNat == 13 ||
  c.toNat == 28 || c.toNat == 29 || c.toNat == 30 || c.toNat == 31 || c.toNat == 32

/-- Python `str.strip()` on the underlying character list: drop leading and
trailing whitespace. -/
def pyStripChars (cs : List Char) : List Char :=
  ((cs.dropWhile isPyWs).reverse.dropWhile isPyWs).reverse

/-- Python `str.strip()`. -/
def pyStrip (s : String) : String :=
  String.mk (pyStripChars s.data)

/-- Python `not s.strip()`: the line is blank (empty or whitespace-only). -/
def isBlankLine (s : String) : Bool :=
  (pyStripChars s.data).isEmpty

/-- Python `re.search(r"\d", s)` succeeds: some character is an ASCII digit. -/
def containsDigit (s : String) : Bool :=
  s.data.any Char.isDigit

/-- Numeric value of a run of ASCII digit characters (Python `int` on the
matched group). -/
def digitRunVal (cs : List Char) : Nat :=
  cs.foldl (fun a c => a * 10 + (c.toNat - 48)) 0

/-- Scan for the first digit and take the maximal digit run starting there
(`re.search(r"(\d+)", s)` followed by `int(match.group(1))`). -/
def firstDigitRunAux : List Char → Option Nat
  | [] => none
  | c :: rest =>
    if c.isDigit then some (digitRunVal (c :: rest.takeWhile Char.isDigit))
    else firstDigitRunAux rest

/-- Python `re.search(r"(\d+)", s)`, returning `int(match.group(1))` when a
digit run exists. -/
def firstDigitRun (s : String) : Option Nat :=
  firstDigitRunAux s.data

/-- Python `s.split("\t")` on the character list: split at every tab,
keeping empty pieces; the result is always non-empty. -/
def splitTabChars : List Char → List (List Char)
  | [] => [[]]
  | c :: rest =>
    if c = '\t' then [] :: splitTabChars rest
    else
      match splitTabChars rest with
      | [] => [[c]]
      | t :: ts => (c :: t) :: ts

/-- Python `s.split("\t")`. -/
def splitTab (s : String) : List String :=
  (splitTabChars s.data).map String.mk

/-- Digit-sequence part of Python `int(str)`: digits with single underscores
allowed between digits, accumulating the value. -/
def pyIntDigitsAux (acc : Nat) : List Char → Option Nat
  | [] => some acc
  | c :: rest =>
    if c.isDigit then pyIntDigitsAux (acc * 10 + (c.toNat - 48)) rest
    else if c = '_' then
      match rest with
      | [] => none
      | d :: ds => if d.isDigit then pyIntDigitsAux acc (d :: ds) else none
    else none

/-- Python `int(str)` digit part: must start with a digit. -/
def pyIntNatCore : List Char → Option Nat
  | [] => none
  | c :: rest => if c.isDigit then pyIntDigitsAux 0 (c :: rest) else none

/-- Python `int(str)`: strip whitespace, optional sign, digit run
(underscore grouping allowed); `none` models the `ValueError`. -/
def pyInt (s : String) : Option Int :=
  match pyStripChars s.data with
  | '+' :: rest => (pyIntNatCore rest).map (fun n => (n : Int))
  | '-' :: rest => (pyIntNatCore rest).map (fun n => -(n : Int))
  | cs => (pyIntNatCore cs).map (fun n => (n : Int))

/-- Python `bytes.decode("ascii", errors="replace")`: bytes below 128 decode
to themselves, all others to U+FFFD. -/
def decodeAsciiReplace (bs : List Nat) : List Char :=
  bs.map (fun b => if b < 128 then Char.ofNat b else Char.ofNat 65533)

/-- Line-break characters of Python `str.splitlines()`. -/
def isLineBreakChar (c : Char) : Bool :=
  c.toNat == 10 || c.toNat == 11 || c.toNat == 12 || c.toNat == 13 ||
  c.toNat == 28 || c.toNat == 29 || c.toNat == 30 || c.toNat == 133 ||
  c.toNat == 8232 || c.toNat == 8233

/-- Worker for `str.splitlines()`: `cur` holds the current line reversed. -/
def slAux (cur : List Char) : List Char → List String
  | [] => if cur.isEmpty then [] else [String.mk cur.reverse]
  | '\r' :: '\n' :: rest => String.mk cur.reverse :: slAux [] rest
  | c :: rest =>
    if isLineBreakChar c then String.mk cur.reverse :: slAux [] rest
    else slAux (c :: cur) rest

/-- Python `str.splitlines()`. -/
def splitlinesPy (cs : List Char) : List String :=
  slAux [] cs

/-- ASCII bytes of a Lean string (used to build concrete decoded scripts). -/
def asciiBytes (s : String) : List Nat :=
  s.data.map Char.toNat

/-- The error taxonomy of the parser.  Each `raise ValueError(...)` site in
`parse_dungeon_script` (and the `int()` failure inside `_parse_ints`) gets one
constructor carrying exactly the data interpolated into its message;
`outOfRange` is the Python `IndexError` raised by `lines[cursor]` when the
cursor has run past the end of the line array (it is not a `ValueError`). -/
inductive ParseError
  | emptyScript
  | missingSpawnCount
  | malformedSpawnLine (index : Nat) (line : String)
  | intParseFailure (token : String)
  | missingBlockCount
  | malformedBlockCountLine (line : String)
  | outOfRange
deriving DecidableEq

/-- Python distinguishes exception classes: everything above except the
`IndexError` is a `ValueError` (caught by `except ValueError`). -/
def ParseError.isValueError : ParseError → Bool
  | .outOfRange => false
  | _ => true

/-- One rectangular dungeon block (the per-block dict built by
`parse_dungeon_script`). -/
structure Block where
  rect : List Int
  enemies : List Int
  respawn : List Int
  clear : List Int
  vip : List Int
  exceptional : List Int
  text : String
  countdown : Int
deriving DecidableEq

/-- The structured result `{"spawns": ..., "blocks": ...}`. -/
structure ParsedDungeon where
  spawns : List Int
  blocks : List Block
deriving DecidableEq

/-- `_parse_ints(parts)`: keep non-empty parts, parse each with `int`;
the first failing token raises. -/
def parse_ints : List String → Except ParseError (List Int)
  | [] => .ok []
  | p :: rest =>
    if p.data.isEmpty then parse_ints rest
    else
      match pyInt p with
      | none => .error (.intParseFailure p)
      | some v =>
        match parse_ints rest with
        | .error e => .error e
        | .ok vs => .ok (v :: vs)

/-- Header search (source lines 52-54): pop lines, stripping each, until the
current header contains a digit or the lines run out; returns the final
header together with the remaining lines. -/
def findHeader (header : String) : List String → String × List String
  | [] => (header, [])
  | l :: rest =>
    if containsDigit header then (header, l :: rest)
    else findHeader (pyStrip l) rest

/-- Spawn-reading loop (source lines 63-72): walk the remaining lines with a
cursor until `spawnCount` spawns are collected or lines are exhausted.  Blank
lines are skipped; a non-blank line must yield at least two integer tokens and
contributes its last token.  Returns the spawns and the unconsumed suffix. -/
def readSpawns (n : Nat) (acc : List Int) : List String → Except ParseError (List Int × List String)
  | [] => .ok (acc, [])
  | l :: rest =>
    if n ≤ acc.length then .ok (acc, l :: rest)
    else
      let line := pyStrip l
      if line.data.isEmpty then readSpawns n acc rest
      else
        match parse_ints (splitTab line) with
        | .error e => .error e
        | .ok toks =>
          if toks.length < 2 then .error (.malformedSpawnLine acc.length line)
          else readSpawns n (acc ++ [toks.getLast!]) rest

/-- Skip-to-block-count loop (source lines 74-75): advance past lines that
contain no digit (the raw lines, not stripped). -/
def skipToBlockCount : List String → List String
  | [] => []
  | l :: rest => if containsDigit l then l :: rest else skipToBlockCount rest

/-- One fixed block field: index the current line (an `IndexError` if the
lines are exhausted), strip it, split on tab and parse the integers, then
advance the cursor. -/
def readIntLine : List String → Except ParseError (List Int × List String)
  | [] => .error .outOfRange
  | l :: rest =>
    match parse_ints (splitTab (pyStrip l)) with
    | .error e => .error e
    | .ok toks => .ok (toks, rest)

/-- Python `s.replace("\t", "")`. -/
def stripTabs (s : String) : String :=
  String.mk (s.data.filter (fun c => c ≠ '\t'))

/-- Countdown value (source lines 116-117): the first digit run of the
stripped line, defaulting to 0. -/
def countdownVal (l : String) : Int :=
  match firstDigitRun (pyStrip l) with
  | some v => (v : Int)
  | none => 0

/-- One block (source lines 89-130): skip blank lines, then consume exactly
8 lines in fixed order - rect, enemies, respawn, clear, vip, exceptional,
text, countdown.  For the five middle tables the first token is dropped
(`raw[1:] if raw else []`); the text line has tabs removed and is stripped. -/
def readBlock (ls : List String) : Except ParseError (Block × List String) :=
  match readIntLine (ls.dropWhile isBlankLine) with
  | .error e => .error e
  | .ok (rect, r1) =>
    match readIntLine r1 with
    | .error e => .error e
    | .ok (enemies_raw, r2) =>
      match readIntLine r2 with
      | .error e => .error e
      | .ok (respawn_raw, r3) =>
        match readIntLine r3 with
        | .error e => .error e
        | .ok (clear_raw, r4) =>
          match readIntLine r4 with
          | .error e => .error e
          | .ok (vip_raw, r5) =>
            match readIntLine r5 with
            | .error e => .error e
            | .ok (exceptional_raw, r6) =>
              match r6 with
              | [] => .error .outOfRange
              | tline :: r7 =>
                match r7 with
                | [] => .error .outOfRange
                | cline :: r8 =>
                  .ok ({ rect := rect
                         enemies := if enemies_raw.isEmpty then [] else enemies_raw.drop 1
                         respawn := if respawn_raw.isEmpty then [] else respawn_raw.drop 1
                         clear := if clear_raw.isEmpty then [] else clear_raw.drop 1
                         vip := if vip_raw.isEmpty then [] else vip_raw.drop 1
                         exceptional := if exceptional_raw.isEmpty then [] else exceptional_raw.drop 1
                         text := pyStrip (stripTabs tline)
                         countdown := countdownVal cline }, r8)

/-- The `for block_index in range(block_count)` loop. -/
def readBlocks : Nat → List String → List Block → Except ParseError (List Block)
  | 0, _, acc => .ok acc
  | k + 1, ls, acc =>
    match readBlock ls with
    | .error e => .error e
    | .ok (b, rest) => readBlocks k rest (acc ++ [b])

/-- Block-count recovery and block reading (source lines 74-132): skip lines
without a digit, require a current line (else the missing-block-count error),
extract its digit run as the block count (else the malformed-block-count-line
error), then read that many blocks. -/
def parseAfterSpawns (spawns : List Int) (rest2 : List String) : Except ParseError ParsedDungeon :=
  match skipToBlockCount rest2 with
  | [] => .error .missingBlockCount
  | bl :: rest4 =>
    match firstDigitRun bl with
    | none => .error (.malformedBlockCountLine bl)
    | some blockCount =>
      match readBlocks blockCount rest4 [] with
      | .error e => .error e
      | .ok blocks => .ok ⟨spawns, blocks⟩

/-- `parse_dungeon_script` after line splitting (source lines 46-132),
operating on the line list. -/
def parse_lines (lines0 : List String) : Except ParseError ParsedDungeon :=
  match lines0.dropWhile isBlankLine with
  | [] => .error .emptyScript
  | lf :: lr =>
    match findHeader "" (lf :: lr) with
    | (header, rest) =>
      match firstDigitRun header with
      | none => .error .missingSpawnCount
      | some spawnCount =>
        match readSpawns spawnCount [] rest with
        | .error e => .error e
        | .ok (spawns, rest2) => parseAfterSpawns spawns rest2

/-- `parse_dungeon_script(decoded)`: decode the bytes as ascii with
replacement, split into lines, and run the line parser. -/
def parse_dungeon_script (decoded : List Nat) : Except ParseError ParsedDungeon :=
  parse_lines (splitlinesPy (decodeAsciiReplace decoded))

/-- `XOR_KEY = 0xFF`. -/
def XOR_KEY : Nat := 0xFF

/-- `decode_script(chunk)`: XOR every byte with the fixed key. -/
def decode_script (chunk : List Nat) : List Nat :=
  chunk.map (fun b => b ^^^ XOR_KEY)

/-- C8: `decode_script` is a pure, total, length-preserving involution: the
output has the same length, each output byte is the corresponding input byte
XORed with 0xFF, and decoding twice is the identity; being a total function
it never fails. -/
theorem decode_script_involution (x : List Nat) :
    (decode_script x).length = x.length ∧
    (∀ i : Nat, (decode_script x)[i]? = (x[i]?).map (fun b => b ^^^ 0xFF)) ∧
    decode_script (decode_script x) = x := by
  refine ⟨by simp [decode_script], fun i => by simp [decode_script, XOR_KEY], ?_⟩
  have key : ∀ b : Nat, (b ^^^ XOR_KEY) ^^^ XOR_KEY = b := by
    intro b
    rw [Nat.xor_assoc, Nat.xor_self, Nat.xor_zero]
  induction x with
  | nil => rfl
  | cons b bs ih => simp [decode_script, key] at ih ⊢; exact ih

/-- `SCRIPT_NAME_SIZE = 260`. -/
def SCRIPT_NAME_SIZE : Nat := 260

/-- Python slice `data[a:b]` for non-negative bounds: clamps, never raises. -/
def pySlice (l : List Nat) (a b : Nat) : List Nat :=
  (l.drop a).take (b - a)

/-- `int.from_bytes(chunk, "little")`. -/
def leBytesToNat : List Nat → Nat
  | [] => 0
  | b :: rest => b + 256 * leBytesToNat rest

/-- Errors of the archive reader: `name.decode("ascii")` failing on a
non-ASCII byte (a `UnicodeDecodeError`), or the explicit
`ValueError` raised for an empty name slot. -/
inductive ArchiveError
  | unicodeDecodeError
  | emptyName (index : Nat)
deriving DecidableEq

/-- Python `bytes.decode("ascii")`: succeeds exactly when every byte is below
128. -/
def decodeAsciiStrict (bs : List Nat) : Option (List Char) :=
  if bs.all (fun b => b < 128) then some (bs.map Char.ofNat) else none

/-- Loop body of `read_script_names` (source lines 19-24): slice the i-th
260-byte slot, keep bytes before the first null, decode as ascii, and reject
an empty name. -/
def readNamesAux (data : List Nat) (start : Nat) : Nat → Nat → Except ArchiveError (List String)
  | _, 0 => .ok []
  | i, k + 1 =>
    let block := pySlice data (start + i * SCRIPT_NAME_SIZE) (start + (i + 1) * SCRIPT_NAME_SIZE)
    match decodeAsciiStrict (block.takeWhile (fun b => b != 0)) with
    | none => .error .unicodeDecodeError
    | some cs =>
      if cs.isEmpty then .error (.emptyName i)
      else
        match readNamesAux data start (i + 1) k with
        | .error e => .error e
        | .ok names => .ok (String.mk cs :: names)

/-- `read_script_names(data, count, start)`. -/
def read_script_names (data : List Nat) (count : Nat) (start : Nat) : Except ArchiveError (List String) :=
  readNamesAux data start 0 count

/-- Loop body of `read_offsets` (source lines 30-32): slice 4 bytes per entry
and decode little-endian; slicing clamps, so this is total. -/
def readOffsetsAux (data : List Nat) (start : Nat) : Nat → Nat → List Nat
  | _, 0 => []
  | i, k + 1 =>
    leBytesToNat (pySlice data (start + i * 4) (start + (i + 1) * 4)) ::
      readOffsetsAux data start (i + 1) k

/-- `read_offsets(data, count, start)`. -/
def read_offsets (data : List Nat) (count : Nat) (start : Nat) : List Nat :=
  readOffsetsAux data start 0 count

/-- `int.from_bytes(data[12:16], "little")` (source line 168). -/
def read_script_count (data : List Nat) : Nat :=
  leBytesToNat (pySlice data 12 16)

/-- The error the driver lets escape for one script (source lines 188-191):
a `ValueError` from the parser is re-raised as
`ValueError(f"Failed to parse script filename: exc")`, carrying the filename;
any other exception (the `IndexError`) is not caught and escapes as-is. -/
inductive DriverError
  | wrapped (filename : String) (inner : ParseError)
  | unwrapped (inner : ParseError)
deriving DecidableEq

/-- Whether the escaping error carries the originating script filename. -/
def DriverError.hasFilename : DriverError → Bool
  | .wrapped _ _ => true
  | .unwrapped _ => false

/-- Per-script driver step (the `try`/`except ValueError` of source lines
188-191): the parse result, with a `ValueError` wrapped with the filename and
anything else propagated unchanged. -/
def process_script (filename : String) (decoded : List Nat) : Except DriverError ParsedDungeon :=
  match parse_dungeon_script decoded with
  | .ok d => .ok d
  | .error e =>
    if e.isValueError then .error (.wrapped filename e) else .error (.unwrapped e)

/-- The decoded script text of the section-8 end-to-end scenario (12 lines). -/
def scenarioScript : String :=
  "Spawns: 2\n1\t10\n2\t20\nBlocks: 1\n0\t0\t10\t10\n3\t1\t2\t3\n1\t5\n1\t9\n0\n2\t4\t5\nHello world\nCountdown 30"

/-- C1 counterexample: on the section-8 scenario script the parser does NOT
return the claimed record with `enemies = [2, 3]` - the enemies line
`3 TAB 1 TAB 2 TAB 3` tokenizes to `[3, 1, 2, 3]` and dropping the first
token leaves `[1, 2, 3]`. -/
theorem scenario_claimed_result_refuted :
    decide (parse_dungeon_script (asciiBytes scenarioScript) =
      Except.ok ⟨[10, 20], [⟨[0, 0, 10, 10], [2, 3], [5], [9], [], [4, 5], "Hello world", 30⟩]⟩)
      = false := by
  decide

/-- C1 (amended): the section-8 scenario parses to `spawns = [10, 20]` and one
block with `rect = [0, 0, 10, 10]`, `enemies = [1, 2, 3]`, `respawn = [5]`,
`clear = [9]`, `vip = []`, `exceptional = [4, 5]`, `text = "Hello world"`,
`countdown = 30`. -/
theorem scenario_parse_eval :
    parse_dungeon_script (asciiBytes scenarioScript) =
      Except.ok ⟨[10, 20], [⟨[0, 0, 10, 10], [1, 2, 3], [5], [9], [], [4, 5], "Hello world", 30⟩]⟩ := by
  decide

/-- C2 counterexample: a script whose single block runs past the end of the
line array fails with the `IndexError` (`outOfRange`), which the driver's
`except ValueError` does not catch: the escaping error is the same for every
filename and carries no filename at all. -/
theorem index_error_not_wrapped :
    process_script "ROOM01.dun" (asciiBytes "Spawns 1\n1\t2\nBlocks 1") =
      .error (.unwrapped .outOfRange) ∧
    process_script "OTHER.dun" (asciiBytes "Spawns 1\n1\t2\nBlocks 1") =
      .error (.unwrapped .outOfRange) ∧
    DriverError.hasFilename (.unwrapped .outOfRange) = false := by
  exact ⟨by decide, by decide, rfl⟩

/-- C2 (amended): every parse failure raised as a `ValueError` (all taxonomy
errors except the out-of-range `IndexError`) is caught by the driver and
re-raised wrapped with the originating script's filename; the `IndexError`
from a block's fixed 8-line sequence escapes unwrapped. -/
theorem valueError_failures_wrapped (decoded : List Nat) (fn : String) (e : ParseError)
    (hp : parse_dungeon_script decoded = .error e) (hv : e.isValueError = true) :
    process_script fn decoded = .error (.wrapped fn e) ∧
    DriverError.hasFilename (.wrapped fn e) = true := by
  constructor
  · simp [process_script, hp, hv]
  · rfl

/-- C2 witness: the empty script fails with the `ValueError`-class
`emptyScript` error and the driver wraps it with the filename. -/
theorem valueError_failures_wrapped_witness :
    parse_dungeon_script ([] : List Nat) = .error .emptyScript ∧
    ParseError.isValueError .emptyScript = true ∧
    (process_script "ROOM01.dun" ([] : List Nat) = .error (.wrapped "ROOM01.dun" .emptyScript) ∧
     DriverError.hasFilename (.wrapped "ROOM01.dun" .emptyScript) = true) :=
  ⟨rfl, rfl, valueError_failures_wrapped [] "ROOM01.dun" .emptyScript rfl rfl⟩

/-- A 276-byte container: 12 reserved bytes, script count 1, one valid
260-byte name slot ("A"), and no room at all for the offset table. -/
def truncatedArchive : List Nat :=
  List.replicate 12 0 ++ [1, 0, 0, 0] ++ ([65] ++ List.replicate 259 0)

/-- C3 counterexample: on a container too small for the declared script
count's offset table, the Archive Reader raises no error at all: the name
table reads back fine, the offset slice `data[276:280]` is empty (an
out-of-bounds read clamped by slicing), and `read_offsets` silently returns
the offset 0 decoded from that empty slice. -/
theorem truncated_offset_table_silent :
    truncatedArchive.length = 276 ∧
    read_script_count truncatedArchive = 1 ∧
    pySlice truncatedArchive 276 280 = [] ∧
    read_script_names truncatedArchive 1 16 = .ok ["A"] ∧
    read_offsets truncatedArchive 1 276 = [0] := by
  refine ⟨by decide, by decide, by decide, by decide, by decide⟩

/-- Length of `readOffsetsAux`: always exactly the requested count. -/
lemma readOffsetsAux_length (data : List Nat) (start : Nat) :
    ∀ k i, (readOffsetsAux data start i k).length = k := by
  intro k
  induction k with
  | zero => intro i; rfl
  | succ k ih => intro i; simp [readOffsetsAux, ih]

/-- `readOffsetsAux` on a fully out-of-bounds table: every slice is empty and
decodes to 0. -/
lemma readOffsetsAux_oob (data : List Nat) (start : Nat) (h : data.length ≤ start) :
    ∀ k i, readOffsetsAux data start i k = List.replicate k 0 := by
  intro k
  induction k with
  | zero => intro i; rfl
  | succ k ih =>
    intro i
    have hd : data.drop (start + i * 4) = [] :=
      List.drop_eq_nil_of_le (le_trans h (Nat.le_add_right _ _))
    simp [readOffsetsAux, pySlice, hd, leBytesToNat, ih, List.replicate_succ]

/-- C3 (amended): slicing clamps instead of raising, so the Archive Reader
never reports a dedicated truncated-archive error: `read_offsets` is total and
always returns exactly `count` offsets, and when the offset table lies
entirely past the end of the container it silently returns `count` zeros
decoded from empty out-of-bounds slices. -/
theorem read_offsets_total_on_truncation (data : List Nat) (count start : Nat) :
    (read_offsets data count start).length = count ∧
    (data.length ≤ start → read_offsets data count start = List.replicate count 0) :=
  ⟨readOffsetsAux_length data start count 0,
   fun h => readOffsetsAux_oob data start h count 0⟩

/-- C3 witness: a 2-byte container with offset table declared at byte 7. -/
theorem read_offsets_total_on_truncation_witness :
    (read_offsets [0, 1] 2 7).length = 2 ∧
    (([0, 1] : List Nat).length ≤ 7 ∧ read_offsets [0, 1] 2 7 = List.replicate 2 0) :=
  ⟨(read_offsets_total_on_truncation [0, 1] 2 7).1,
   by decide,
   (read_offsets_total_on_truncation [0, 1] 2 7).2 (by decide)⟩

/-- C5 counterexample: for the spawn-section line " 5 " (single token with
surrounding whitespace) the parser fails with the malformed-spawn-line error,
but the error names the stripped text "5", not the raw line text " 5 ". -/
theorem malformed_spawn_line_raw_refuted :
    parse_dungeon_script (asciiBytes "Spawns 1\n 5 ") =
      .error (.malformedSpawnLine 0 "5") ∧
    decide (("5" : String) = " 5 ") = false := by
  exact ⟨by decide, by decide⟩

/-- C5 (amended): whenever the spawn-reading loop, still short of its count,
meets a non-blank line whose tab tokens all parse but number fewer than 2, it
fails with `malformedSpawnLine` naming the 0-based index of the spawn being
read (the number collected so far) and the line text as stripped of
surrounding whitespace; no spawn is appended for that line (the result is the
error, not a success). -/
theorem malformed_spawn_line_error (n : Nat) (acc : List Int) (l : String)
    (rest : List String) (toks : List Int)
    (hcount : acc.length < n)
    (hnb : (pyStrip l).data.isEmpty = false)
    (htoks : parse_ints (splitTab (pyStrip l)) = .ok toks)
    (hlen : toks.length < 2) :
    readSpawns n acc (l :: rest) = .error (.malformedSpawnLine acc.length (pyStrip l)) := by
  simp only [readSpawns]
  rw [if_neg (Nat.not_le.mpr hcount), hnb, htoks]
  simp [hlen]

/-- C5 witness: the single-token line "5" at spawn index 0. -/
theorem malformed_spawn_line_error_witness :
    ([] : List Int).length < 1 ∧
    (pyStrip "5").data.isEmpty = false ∧
    parse_ints (splitTab (pyStrip "5")) = .ok [5] ∧
    ([5] : List Int).length < 2 ∧
    readSpawns 1 [] ["5"] = .error (.malformedSpawnLine 0 (pyStrip "5")) :=
  ⟨by decide, by decide, by decide, by decide,
   malformed_spawn_line_error 1 [] "5" [] [5] (by decide) (by decide) (by decide) (by decide)⟩

/-- The spawn loop, once it stops short of the requested count with a success,
can only have done so because the lines ran out. -/
lemma readSpawns_short_stop :
    ∀ (lines : List String) (n : Nat) (acc spawns : List Int) (rest : List String),
      readSpawns n acc lines = .ok (spawns, rest) → spawns.length < n → rest = [] := by
  intro lines
  induction lines with
  | nil =>
    intro n acc spawns rest h hl
    simp only [readSpawns, Except.ok.injEq, Prod.mk.injEq] at h
    exact h.2.symm
  | cons l lt ih =>
    intro n acc spawns rest h hl
    simp only [readSpawns] at h
    split at h
    · rename_i hle
      simp only [Except.ok.injEq, Prod.mk.injEq] at h
      rw [← h.1] at hl
      omega
    · split at h
      · exact ih _ _ _ _ h hl
      · split at h
        · simp at h
        · split at h
          · simp at h
          · exact ih _ _ _ _ h hl

/-- C6: exhaustion of the line array before `spawnCount` spawns are collected
is not an error: on an exhausted array the spawn loop succeeds with whatever
it has collected, and conversely any successful stop that is still short of
the count happened exactly at the end of the line array (the under-fill is
never reported by the spawn-reading step). -/
theorem spawn_underfill_silent (n : Nat) (acc : List Int) :
    readSpawns n acc [] = .ok (acc, []) ∧
    ∀ lines spawns rest, readSpawns n acc lines = .ok (spawns, rest) →
      spawns.length < n → rest = [] :=
  ⟨rfl, fun lines spawns rest h hl => readSpawns_short_stop lines n acc spawns rest h hl⟩

/-- C6 witness: asking for 2 spawns from a single well-formed line yields one
spawn, successfully, with the line array exhausted. -/
theorem spawn_underfill_silent_witness :
    readSpawns 2 [] ["1\t2"] = .ok ([2], []) ∧
    ([2] : List Int).length < 2 ∧
    ([] : List String) = [] :=
  ⟨by decide, by decide,
   (spawn_underfill_silent 2 []).2 ["1\t2"] [2] [] (by decide) (by decide)⟩

/-- The only error `_parse_ints` can raise is the integer-parse failure. -/
lemma parse_ints_error_shape :
    ∀ (parts : List String) (e : ParseError),
      parse_ints parts = .error e → ∃ t, e = .intParseFailure t := by
  intro parts
  induction parts with
  | nil => intro e h; simp [parse_ints] at h
  | cons p rest ih =>
    intro e h
    simp only [parse_ints] at h
    split at h
    · exact ih e h
    · split at h
      · rename_i hp
        injection h with h'
        exact ⟨p, h'.symm⟩
      · split at h
        · injection h with h'
          rename_i e2 hr
          exact h' ▸ ih e2 hr
        · simp at h

/-- The only errors the spawn loop can raise are the malformed-spawn-line
error and the integer-parse failure. -/
lemma readSpawns_error_shape :
    ∀ (lines : List String) (n : Nat) (acc : List Int) (e : ParseError),
      readSpawns n acc lines = .error e →
      (∃ i l, e = .malformedSpawnLine i l) ∨ (∃ t, e = .intParseFailure t) := by
  intro lines
  induction lines with
  | nil => intro n acc e h; simp [readSpawns] at h
  | cons l lt ih =>
    intro n acc e h
    simp only [readSpawns] at h
    split at h
    · simp at h
    · split at h
      · exact ih n acc e h
      · split at h
        · rename_i e2 hpe
          injection h with h'
          exact Or.inr (h' ▸ parse_ints_error_shape _ e2 hpe)
        · split at h
          · injection h with h'
            exact Or.inl ⟨acc.length, pyStrip l, h'.symm⟩
          · exact ih n _ e h

/-- The only errors a fixed block field read can raise are the out-of-range
index error and the integer-parse failure. -/
lemma readIntLine_error_shape (ls : List String) (e : ParseError) :
    readIntLine ls = .error e → e = .outOfRange ∨ ∃ t, e = .intParseFailure t := by
  cases ls with
  | nil =>
    intro h
    injection h with h'
    exact Or.inl h'.symm
  | cons l rest =>
    intro h
    simp only [readIntLine] at h
    split at h
    · rename_i e2 hpe
      injection h with h'
      exact Or.inr (h' ▸ parse_ints_error_shape _ e2 hpe)
    · simp at h

/-- The only errors a block read can raise are the out-of-range index error
and the integer-parse failure. -/
lemma readBlock_error_shape (ls : List String) (e : ParseError) :
    readBlock ls = .error e → e = .outOfRange ∨ ∃ t, e = .intParseFailure t := by
  intro h
  simp only [readBlock] at h
  split at h
  · rename_i e2 h2
    injection h with h'
    exact h' ▸ readIntLine_error_shape _ e2 h2
  · split at h
    · rename_i e2 h2
      injection h with h'
      exact h' ▸ readIntLine_error_shape _ e2 h2
    · split at h
      · rename_i e2 h2
        injection h with h'
        exact h' ▸ readIntLine_error_shape _ e2 h2
      · split at h
        · rename_i e2 h2
          injection h with h'
          exact h' ▸ readIntLine_error_shape _ e2 h2
        · split at h
          · rename_i e2 h2
            injection h with h'
            exact h' ▸ readIntLine_error_shape _ e2 h2
          · split at h
            · rename_i e2 h2
              injection h with h'
              exact h' ▸ readIntLine_error_shape _ e2 h2
            · split at h
              · injection h with h'
                exact Or.inl h'.symm
              · split at h
                · injection h with h'
                  exact Or.inl h'.symm
                · simp at h

/-- The only errors the block loop can raise are those of a block read. -/
lemma readBlocks_error_shape :
    ∀ (k : Nat) (ls : List String) (acc : List Block) (e : ParseError),
      readBlocks k ls acc = .error e → e = .outOfRange ∨ ∃ t, e = .intParseFailure t := by
  intro k
  induction k with
  | zero => intro ls acc e h; simp [readBlocks] at h
  | succ k ih =>
    intro ls acc e h
    simp only [readBlocks] at h
    split at h
    · rename_i e2 h2
      injection h with h'
      exact h' ▸ readBlock_error_shape _ e2 h2
    · exact ih _ _ e h

/-- The head of the skip-to-block-count loop's result always contains a
digit. -/
lemma skipToBlockCount_head :
    ∀ (ls : List String) (l : String) (rest : List String),
      skipToBlockCount ls = l :: rest → containsDigit l = true := by
  intro ls
  induction ls with
  | nil => intro l rest h; simp [skipToBlockCount] at h
  | cons x xs ih =>
    intro l rest h
    simp only [skipToBlockCount] at h
    split at h
    · rename_i hx
      injection h with h1 h2
      exact h1 ▸ hx
    · exact ih l rest h

/-- A character list containing a digit has a first digit run. -/
lemma firstDigitRunAux_of_any :
    ∀ (cs : List Char), cs.any Char.isDigit = true → ∃ k, firstDigitRunAux cs = some k := by
  intro cs
  induction cs with
  | nil => intro h; simp at h
  | cons c rest ih =>
    intro h
    simp only [firstDigitRunAux]
    by_cases hc : c.isDigit
    · rw [if_pos hc]
      exact ⟨_, rfl⟩
    · rw [if_neg hc]
      apply ih
      simpa [List.any_cons, hc] using h

/-- A line containing a digit has a first digit run. -/
lemma containsDigit_firstDigitRun (s : String) (h : containsDigit s = true) :
    ∃ k, firstDigitRun s = some k :=
  firstDigitRunAux_of_any s.data h

/-- Whether a parse result is the malformed-block-count-line error. -/
def isMalformedBlockCountResult (r : Except ParseError ParsedDungeon) : Bool :=
  match r with
  | .error (.malformedBlockCountLine _) => true
  | _ => false

/-- The block-count stage never produces the malformed-block-count-line
error: when the skip loop stops inside the array, the current line contains a
digit, so the digit-run extraction succeeds. -/
lemma parseAfterSpawns_no_mbc (spawns : List Int) (rest2 : List String) :
    isMalformedBlockCountResult (parseAfterSpawns spawns rest2) = false := by
  cases hsk : skipToBlockCount rest2 with
  | nil => simp [parseAfterSpawns, hsk, isMalformedBlockCountResult]
  | cons bl rest4 =>
    obtain ⟨k, hk⟩ :=
      containsDigit_firstDigitRun bl (skipToBlockCount_head rest2 bl rest4 hsk)
    simp only [parseAfterSpawns, hsk, hk]
    cases hrb : readBlocks k rest4 [] with
    | error e =>
      rcases readBlocks_error_shape k rest4 [] e hrb with rfl | ⟨t, rfl⟩ <;> rfl
    | ok blocks => rfl

/-- The line parser never produces the malformed-block-count-line error. -/
lemma parse_lines_no_mbc (lines0 : List String) :
    isMalformedBlockCountResult (parse_lines lines0) = false := by
  simp only [parse_lines]
  split
  · rfl
  · split
    · rfl
    · split
      · rename_i e he
        rcases readSpawns_error_shape _ _ _ e he with ⟨i, l, rfl⟩ | ⟨t, rfl⟩ <;> rfl
      · exact parseAfterSpawns_no_mbc _ _

/-- C10: `parse_dungeon_script` never fails with the malformed-block-count
error: the skip-to-block-count loop only stops inside the array on a line
containing a digit, so the digit-run search at the block-count check cannot
fail, and the only reachable block-count failure is the missing-block-count
error. -/
theorem malformed_block_count_unreachable (decoded : List Nat) :
    isMalformedBlockCountResult (parse_dungeon_script decoded) = false :=
  parse_lines_no_mbc (splitlinesPy (decodeAsciiReplace decoded))

/-- The `raw[1:] if raw else []` pattern is exactly `List.tail`. -/
lemma ifEmptyTail (t : List Int) :
    (if t.isEmpty then ([] : List Int) else t.drop 1) = t.tail := by
  cases t <;> rfl

/-- C7: for any block whose 8 fixed lines tokenize as given, the parsed
block stores each of enemies/respawn/clear/vip/exceptional with the first
token dropped - tokens `t0 :: ts` become `ts`, and a token-less line
(`tail [] = []`) becomes the empty sequence - while the rect line's tokens
are stored in full. -/
theorem block_field_dropping
    (ls : List String) (l0 l1 l2 l3 l4 l5 l6 l7 : String) (rest : List String)
    (t0 t1 t2 t3 t4 t5 : List Int)
    (hdrop : ls.dropWhile isBlankLine = l0 :: l1 :: l2 :: l3 :: l4 :: l5 :: l6 :: l7 :: rest)
    (h0 : parse_ints (splitTab (pyStrip l0)) = .ok t0)
    (h1 : parse_ints (splitTab (pyStrip l1)) = .ok t1)
    (h2 : parse_ints (splitTab (pyStrip l2)) = .ok t2)
    (h3 : parse_ints (splitTab (pyStrip l3)) = .ok t3)
    (h4 : parse_ints (splitTab (pyStrip l4)) = .ok t4)
    (h5 : parse_ints (splitTab (pyStrip l5)) = .ok t5) :
    readBlock ls = .ok
      ({ rect := t0, enemies := t1.tail, respawn := t2.tail, clear := t3.tail,
         vip := t4.tail, exceptional := t5.tail,
         text := pyStrip (stripTabs l6), countdown := countdownVal l7 }, rest) := by
  simp only [readBlock, hdrop, readIntLine, h0, h1, h2, h3, h4, h5, ifEmptyTail]

/-- Demo lines for one block (the section-8 scenario's block). -/
def demoBlockLines : List String :=
  ["0\t0\t10\t10", "3\t1\t2\t3", "1\t5", "1\t9", "0", "2\t4\t5", "Hello world", "Countdown 30"]

/-- C7 witness: the scenario block evaluated through `block_field_dropping`. -/
theorem block_field_dropping_witness :
    demoBlockLines.dropWhile isBlankLine =
      "0\t0\t10\t10" :: "3\t1\t2\t3" :: "1\t5" :: "1\t9" :: "0" :: "2\t4\t5" ::
        "Hello world" :: "Countdown 30" :: [] ∧
    parse_ints (splitTab (pyStrip "0\t0\t10\t10")) = .ok [0, 0, 10, 10] ∧
    parse_ints (splitTab (pyStrip "3\t1\t2\t3")) = .ok [3, 1, 2, 3] ∧
    parse_ints (splitTab (pyStrip "1\t5")) = .ok [1, 5] ∧
    parse_ints (splitTab (pyStrip "1\t9")) = .ok [1, 9] ∧
    parse_ints (splitTab (pyStrip "0")) = .ok [0] ∧
    parse_ints (splitTab (pyStrip "2\t4\t5")) = .ok [2, 4, 5] ∧
    readBlock demoBlockLines = .ok
      ({ rect := [0, 0, 10, 10], enemies := ([3, 1, 2, 3] : List Int).tail,
         respawn := ([1, 5] : List Int).tail, clear := ([1, 9] : List Int).tail,
         vip := ([0] : List Int).tail, exceptional := ([2, 4, 5] : List Int).tail,
         text := pyStrip (stripTabs "Hello world"),
         countdown := countdownVal "Countdown 30" }, []) :=
  ⟨by decide, by decide, by decide, by decide, by decide, by decide, by decide,
   block_field_dropping demoBlockLines "0\t0\t10\t10" "3\t1\t2\t3" "1\t5" "1\t9" "0"
     "2\t4\t5" "Hello world" "Countdown 30" [] [0, 0, 10, 10] [3, 1, 2, 3] [1, 5] [1, 9]
     [0] [2, 4, 5]
     (by decide) (by decide) (by decide) (by decide) (by decide) (by decide) (by decide)⟩

/-- Lines kept by the spawn loop: those that are not blank. -/
def nonBlank (l : String) : Bool :=
  !(isBlankLine l)

/-- The value the spawn loop extracts from a well-formed spawn line: the last
parsed integer token of the stripped line. -/
def lastSpawnTok (l : String) : Int :=
  match parse_ints (splitTab (pyStrip l)) with
  | .ok toks => toks.getLast!
  | .error _ => 0

/-- A line acceptable to the spawn loop: all tab tokens parse as integers and
there are at least two of them. -/
def goodSpawnLine (l : String) : Prop :=
  ∃ toks, parse_ints (splitTab (pyStrip l)) = .ok toks ∧ 2 ≤ toks.length

/-- One spawn-loop step on a well-formed non-blank line appends its last
token. -/
lemma readSpawns_step_good (n : Nat) (acc : List Int) (x : String) (rest : List String)
    (toks : List Int)
    (hlt : acc.length < n)
    (hbx : (pyStrip x).data.isEmpty = false)
    (htoks : parse_ints (splitTab (pyStrip x)) = .ok toks)
    (hlen : 2 ≤ toks.length) :
    readSpawns n acc (x :: rest) = readSpawns n (acc ++ [toks.getLast!]) rest := by
  simp only [readSpawns]
  rw [if_neg (Nat.not_le.mpr hlt), hbx, htoks]
  simp [Nat.not_lt.mpr hlen]

/-- One spawn-loop step on a blank line skips it. -/
lemma readSpawns_step_blank (n : Nat) (acc : List Int) (x : String) (rest : List String)
    (hlt : acc.length < n)
    (hbx : (pyStrip x).data.isEmpty = true) :
    readSpawns n acc (x :: rest) = readSpawns n acc rest := by
  simp only [readSpawns]
  rw [if_neg (Nat.not_le.mpr hlt), hbx]
  simp

/-- The spawn loop on lines whose first `k` non-blank entries are all
well-formed collects exactly the last tokens of those `k` lines (in order,
blank lines skipped). -/
lemma readSpawns_good :
    ∀ (lines : List String) (k : Nat) (acc : List Int),
      k ≤ (lines.filter nonBlank).length →
      (∀ g ∈ (lines.filter nonBlank).take k, goodSpawnLine g) →
      ∃ rest2, readSpawns (acc.length + k) acc lines =
        .ok (acc ++ ((lines.filter nonBlank).take k).map lastSpawnTok, rest2) := by
  intro lines
  induction lines with
  | nil =>
    intro k acc hk _
    have hk0 : k = 0 := by simpa using hk
    subst hk0
    exact ⟨[], by simp [readSpawns]⟩
  | cons x rest ih =>
    intro k acc hk hg
    by_cases hb : isBlankLine x = true
    · have hnb : nonBlank x = false := by simp [nonBlank, hb]
      have hfil : (x :: rest).filter nonBlank = rest.filter nonBlank := by
        simp [List.filter_cons, hnb]
      rw [hfil] at hk hg ⊢
      cases k with
      | zero => exact ⟨x :: rest, by simp [readSpawns]⟩
      | succ k' =>
        obtain ⟨rest2, hrec⟩ := ih (k' + 1) acc hk hg
        refine ⟨rest2, ?_⟩
        rw [readSpawns_step_blank _ _ _ _ (by omega) (by simpa [isBlankLine] using hb)]
        exact hrec
    · have hnb : nonBlank x = true := by simp [nonBlank, hb]
      have hfil : (x :: rest).filter nonBlank = x :: rest.filter nonBlank := by
        simp [List.filter_cons, hnb]
      cases k with
      | zero => exact ⟨x :: rest, by simp [readSpawns]⟩
      | succ k' =>
        have hgx : goodSpawnLine x := by
          apply hg
          rw [hfil]
          simp
        obtain ⟨toks, htoks, hlen⟩ := hgx
        have hk' : k' ≤ (rest.filter nonBlank).length := by
          rw [hfil] at hk
          simpa using hk
        have hg' : ∀ g ∈ (rest.filter nonBlank).take k', goodSpawnLine g := by
          intro g hgm
          apply hg
          rw [hfil]
          simp only [List.take_succ_cons, List.mem_cons]
          exact Or.inr hgm
        obtain ⟨rest2, hrec⟩ := ih k' (acc ++ [toks.getLast!]) hk' hg'
        refine ⟨rest2, ?_⟩
        have hbx : (pyStrip x).data.isEmpty = false := by
          simpa [isBlankLine] using hb
        rw [hfil]
        simp only [List.take_succ_cons, List.map_cons]
        rw [readSpawns_step_good (acc.length + (k' + 1)) acc x rest toks (by omega) hbx htoks hlen]
        have hn : acc.length + (k' + 1) = (acc ++ [toks.getLast!]).length + k' := by
          simp
          omega
        rw [hn, hrec]
        have hx : lastSpawnTok x = toks.getLast! := by simp [lastSpawnTok, htoks]
        rw [hx]
        simp

/-- C4: when the first digit-bearing (header) line's first digit run is `n`
and the following lines' first `n` non-blank entries each split on tab into at
least two integer tokens, the spawn stage collects exactly `n` spawns, the
i-th being the last integer token of the i-th non-blank line (blank lines
skipped); and any successful run of the whole parser on such a script carries
exactly that spawn sequence. -/
theorem spawn_count_contract (lines0 : List String) (lf hdr : String)
    (lr rest : List String) (n : Nat)
    (h1 : lines0.dropWhile isBlankLine = lf :: lr)
    (h2 : findHeader "" (lf :: lr) = (hdr, rest))
    (h3 : firstDigitRun hdr = some n)
    (h4 : n ≤ (rest.filter nonBlank).length)
    (h5 : ∀ g ∈ (rest.filter nonBlank).take n, goodSpawnLine g) :
    (((rest.filter nonBlank).take n).map lastSpawnTok).length = n ∧
    (∃ rest2, readSpawns n [] rest =
      .ok (((rest.filter nonBlank).take n).map lastSpawnTok, rest2)) ∧
    ∀ pd, parse_lines lines0 = .ok pd →
      pd.spawns = ((rest.filter nonBlank).take n).map lastSpawnTok := by
  have hlen : (((rest.filter nonBlank).take n).map lastSpawnTok).length = n := by
    simp [List.length_take]
    omega
  obtain ⟨rest2, hrs⟩ := readSpawns_good rest n [] h4 h5
  simp only [List.length_nil, Nat.zero_add, List.nil_append] at hrs
  refine ⟨hlen, ⟨rest2, hrs⟩, ?_⟩
  intro pd hpd
  simp only [parse_lines, h1, h2, h3, hrs] at hpd
  simp only [parseAfterSpawns] at hpd
  cases hsk : skipToBlockCount rest2 with
  | nil => simp [hsk] at hpd
  | cons bl rest4 =>
    simp only [hsk] at hpd
    cases hfd : firstDigitRun bl with
    | none => simp [hfd] at hpd
    | some bc =>
      simp only [hfd] at hpd
      cases hrb : readBlocks bc rest4 [] with
      | error e => simp [hrb] at hpd
      | ok blocks =>
        simp only [hrb, Except.ok.injEq] at hpd
        subst hpd
        rfl

/-- C4 witness: a script asking for 2 spawns with two well-formed spawn lines
separated by a blank line; the whole parse succeeds (block count 0) with
spawns [10, 20]. -/
theorem spawn_count_contract_witness :
    (["", "Spawns: 2", "1\t10", "", "2\t20", "Blocks: 0"].dropWhile isBlankLine
       = "Spawns: 2" :: ["1\t10", "", "2\t20", "Blocks: 0"]) ∧
    (findHeader "" ("Spawns: 2" :: ["1\t10", "", "2\t20", "Blocks: 0"])
       = ("Spawns: 2", ["1\t10", "", "2\t20", "Blocks: 0"])) ∧
    firstDigitRun "Spawns: 2" = some 2 ∧
    2 ≤ ((["1\t10", "", "2\t20", "Blocks: 0"].filter nonBlank)).length ∧
    (∀ g ∈ ((["1\t10", "", "2\t20", "Blocks: 0"].filter nonBlank)).take 2, goodSpawnLine g) ∧
    ((((["1\t10", "", "2\t20", "Blocks: 0"].filter nonBlank)).take 2).map lastSpawnTok).length = 2 ∧
    ∀ pd, parse_lines ["", "Spawns: 2", "1\t10", "", "2\t20", "Blocks: 0"] = .ok pd →
      pd.spawns = (((["1\t10", "", "2\t20", "Blocks: 0"].filter nonBlank)).take 2).map lastSpawnTok := by
  have hfil : ((["1\t10", "", "2\t20", "Blocks: 0"].filter nonBlank)).take 2
      = ["1\t10", "2\t20"] := by decide
  have h5 : ∀ g ∈ ((["1\t10", "", "2\t20", "Blocks: 0"].filter nonBlank)).take 2, goodSpawnLine g := by
    rw [hfil]
    intro g hg
    rcases List.mem_cons.mp hg with rfl | hg2
    · exact ⟨[1, 10], by decide, by decide⟩
    · rcases List.mem_cons.mp hg2 with rfl | hg3
      · exact ⟨[2, 20], by decide, by decide⟩
      · simp at hg3
  have main := spawn_count_contract ["", "Spawns: 2", "1\t10", "", "2\t20", "Blocks: 0"]
    "Spawns: 2" "Spawns: 2" ["1\t10", "", "2\t20", "Blocks: 0"]
    ["1\t10", "", "2\t20", "Blocks: 0"] 2
    (by decide) (by decide) (by decide) (by decide) h5
  exact ⟨by decide, by decide, by decide, by decide, h5, main.1, main.2.2⟩

/-- Little-endian 4-byte encoding of an unsigned 32-bit value (the layout of
the script count and the offset-table entries). -/
def natToLE4 (n : Nat) : List Nat :=
  [n % 256, n / 256 % 256, n / 65536 % 256, n / 16777216 % 256]

/-- A 260-byte null-padded name slot for a script name. -/
def nameSlot (name : String) : List Nat :=
  name.data.map Char.toNat ++ List.replicate (260 - name.data.length) 0

/-- The offset table of a synthetic archive: each script starts where the
previous one ended, the first at `base`. -/
def scanOffsets (base : Nat) : List (List Nat) → List Nat
  | [] => []
  | s :: rest => base :: scanOffsets (base + s.length) rest

/-- A synthetic archive in the documented layout: 12 reserved bytes, the
little-endian u32 script count at byte 12, the 260-byte name slots, the
little-endian u32 offset table, then the concatenated script bytes. -/
def buildArchive (scripts : List (String × List Nat)) : List Nat :=
  List.replicate 12 0 ++ natToLE4 scripts.length
    ++ ((scripts.map Prod.fst).map nameSlot).flatten
    ++ ((scanOffsets (16 + scripts.length * 260 + scripts.length * 4)
          (scripts.map Prod.snd)).map natToLE4).flatten
    ++ (scripts.map Prod.snd).flatten

/-- A name that fits a slot: non-empty, at most 259 characters, every
character a non-null ASCII byte. -/
def validName (name : String) : Prop :=
  name.data ≠ [] ∧ name.data.length ≤ 259 ∧ ∀ c ∈ name.data, 0 < c.toNat ∧ c.toNat < 128

/-- Concatenation of the consecutive byte ranges `[offs[i], offs[i+1])` of a
container (the per-script slices taken by the driver, source lines 179-182). -/
def concatSlices (data : List Nat) : List Nat → List Nat
  | a :: b :: rest => pySlice data a b ++ concatSlices data (b :: rest)
  | _ => []

/-- Length of the 4-byte encoding. -/
lemma natToLE4_length (n : Nat) : (natToLE4 n).length = 4 := rfl

/-- Decoding a 4-byte little-endian encoding recovers any value below 2^32. -/
lemma leBytesToNat_natToLE4 (n : Nat) (h : n < 4294967296) :
    leBytesToNat (natToLE4 n) = n := by
  simp [leBytesToNat, natToLE4]
  omega

/-- A valid name's slot is exactly 260 bytes. -/
lemma nameSlot_length (nm : String) (h : nm.data.length ≤ 259) :
    (nameSlot nm).length = 260 := by
  unfold nameSlot
  rw [List.length_append, List.length_map, List.length_replicate]
  omega

/-- Total length of the name table. -/
lemma slots_flatten_length (names : List String) (h : ∀ nm ∈ names, nm.data.length ≤ 259) :
    ((names.map nameSlot).flatten).length = names.length * 260 := by
  induction names with
  | nil => simp
  | cons nm rest ih =>
    simp only [List.map_cons, List.flatten_cons, List.length_append, List.length_cons]
    rw [nameSlot_length nm (h nm (by simp)), ih (fun x hx => h x (by simp [hx]))]
    ring

/-- Total length of the offset table. -/
lemma le4_flatten_length (offs : List Nat) :
    ((offs.map natToLE4).flatten).length = offs.length * 4 := by
  induction offs with
  | nil => simp
  | cons o rest ih =>
    simp only [List.map_cons, List.flatten_cons, List.length_append, List.length_cons,
      natToLE4_length, ih]
    ring

/-- The offset table has one entry per script. -/
lemma scanOffsets_length (bodies : List (List Nat)) :
    ∀ base, (scanOffsets base bodies).length = bodies.length := by
  induction bodies with
  | nil => intro base; rfl
  | cons s rest ih => intro base; simp [scanOffsets, ih]

/-- Every offset lies within `base` plus the total body length. -/
lemma scanOffsets_le (bodies : List (List Nat)) :
    ∀ base o, o ∈ scanOffsets base bodies → o ≤ base + bodies.flatten.length := by
  induction bodies with
  | nil => intro base o h; simp [scanOffsets] at h
  | cons s rest ih =>
    intro base o h
    simp only [scanOffsets, List.mem_cons] at h
    rcases h with rfl | h2
    · simp
    · have := ih (base + s.length) o h2
      simp only [List.flatten_cons, List.length_append]
      omega

/-- `takeWhile` passes over a prefix it accepts entirely. -/
lemma takeWhile_append_all {α : Type} (p : α → Bool) (l1 l2 : List α)
    (h : ∀ x ∈ l1, p x = true) :
    (l1 ++ l2).takeWhile p = l1 ++ l2.takeWhile p := by
  induction l1 with
  | nil => simp
  | cons a l ih =>
    simp only [List.cons_append, List.takeWhile_cons]
    rw [h a (by simp)]
    simp [ih (fun x hx => h x (by simp [hx]))]

/-- The name reader recovers the names of a well-formed name table laid out
at its cursor position. -/
lemma readNamesAux_ok (data : List Nat) (start : Nat) :
    ∀ (ps : List String) (i : Nat) (tail : List Nat),
      data.drop (start + i * 260) = ((ps.map nameSlot).flatten) ++ tail →
      (∀ p ∈ ps, validName p) →
      readNamesAux data start i ps.length = .ok ps := by
  intro ps
  induction ps with
  | nil => intro i tail _ _; rfl
  | cons p ps ih =>
    intro i tail hdrop hv
    obtain ⟨hne, hle, hchars⟩ := hv p (by simp)
    have hslotlen : (nameSlot p).length = 260 := nameSlot_length p hle
    have harith : start + (i + 1) * 260 - (start + i * 260) = 260 := by omega
    have hblock : pySlice data (start + i * 260) (start + (i + 1) * 260) = nameSlot p := by
      unfold pySlice
      rw [harith, hdrop]
      simp only [List.map_cons, List.flatten_cons, List.append_assoc]
      exact List.take_left' hslotlen
    have hpre : (nameSlot p).takeWhile (fun b => b != 0) = p.data.map Char.toNat := by
      unfold nameSlot
      rw [takeWhile_append_all _ _ _ ?hall]
      case hall =>
        intro x hx
        simp only [List.mem_map] at hx
        obtain ⟨c, hc, rfl⟩ := hx
        have hcpos := (hchars c hc).1
        simp only [bne_iff_ne, ne_eq]
        omega
      have h260 : 260 - p.data.length = (259 - p.data.length) + 1 := by omega
      rw [h260, List.replicate_succ, List.takeWhile_cons]
      simp
    have hdec : decodeAsciiStrict (p.data.map Char.toNat) = some p.data := by
      unfold decodeAsciiStrict
      rw [if_pos ?hlt]
      case hlt =>
        rw [List.all_eq_true]
        intro x hx
        simp only [List.mem_map] at hx
        obtain ⟨c, hc, rfl⟩ := hx
        simpa using (hchars c hc).2
      rw [List.map_map]
      have : p.data.map (Char.ofNat ∘ Char.toNat) = p.data.map id :=
        List.map_congr_left (fun c _ => Char.ofNat_toNat c)
      rw [this, List.map_id]
    have hie : p.data.isEmpty = false := by
      cases hq : p.data with
      | nil => exact absurd hq hne
      | cons a as => rfl
    show readNamesAux data start i (ps.length + 1) = .ok (p :: ps)
    simp only [readNamesAux, SCRIPT_NAME_SIZE]
    rw [hblock, hpre, hdec]
    simp only [hie, Bool.false_eq_true, if_false]
    have hrec : readNamesAux data start (i + 1) ps.length = .ok ps := by
      apply ih (i + 1) tail
      · have heq : start + (i + 1) * 260 = (start + i * 260) + 260 := by ring
        rw [heq, ← List.drop_drop, hdrop]
        simp only [List.map_cons, List.flatten_cons, List.append_assoc]
        exact List.drop_left' hslotlen
      · intro x hx
        exact hv x (by simp [hx])
    rw [hrec]

/-- The offset reader recovers the offsets of a well-formed offset table laid
out at its cursor position. -/
lemma readOffsetsAux_ok (data : List Nat) (start : Nat) :
    ∀ (offs : List Nat) (i : Nat) (tail : List Nat),
      data.drop (start + i * 4) = ((offs.map natToLE4).flatten) ++ tail →
      (∀ o ∈ offs, o < 4294967296) →
      readOffsetsAux data start i offs.length = offs := by
  intro offs
  induction offs with
  | nil => intro i tail _ _; rfl
  | cons o offs ih =>
    intro i tail hdrop hb
    have harith : start + (i + 1) * 4 - (start + i * 4) = 4 := by omega
    have hchunk : pySlice data (start + i * 4) (start + (i + 1) * 4) = natToLE4 o := by
      unfold pySlice
      rw [harith, hdrop]
      simp only [List.map_cons, List.flatten_cons, List.append_assoc]
      exact List.take_left' (natToLE4_length o)
    show readOffsetsAux data start i (offs.length + 1) = o :: offs
    simp only [readOffsetsAux]
    rw [hchunk, leBytesToNat_natToLE4 o (hb o (by simp))]
    congr 1
    apply ih (i + 1) tail
    · have heq : start + (i + 1) * 4 = (start + i * 4) + 4 := by ring
      rw [heq, ← List.drop_drop, hdrop]
      simp only [List.map_cons, List.flatten_cons, List.append_assoc]
      exact List.drop_left' (natToLE4_length o)
    · intro x hx
      exact hb x (by simp [hx])

/-- The consecutive ranges cut at the scan offsets (with the container length
appended as sentinel) concatenate back to the byte region they index. -/
lemma concatSlices_scan (data : List Nat) :
    ∀ (bodies : List (List Nat)) (base : Nat),
      data.drop base = bodies.flatten →
      concatSlices data (scanOffsets base bodies ++ [data.length]) = bodies.flatten := by
  intro bodies
  induction bodies with
  | nil => intro base _; rfl
  | cons s rest ih =>
    intro base hdrop
    cases rest with
    | nil =>
      have hd : data.drop base = s := by simpa using hdrop
      have hlen2 : data.length - base = s.length := by
        have hc := congrArg List.length hd
        rw [List.length_drop] at hc
        omega
      simp only [scanOffsets, List.nil_append, List.cons_append]
      simp only [concatSlices]
      unfold pySlice
      rw [hlen2, hd, List.take_length]
      simp
    | cons s2 rest2 =>
      have hdrop' : data.drop (base + s.length) = (s2 :: rest2).flatten := by
        rw [← List.drop_drop, hdrop]
        simp only [List.flatten_cons]
        exact List.drop_left' rfl
      have hslice : pySlice data base (base + s.length) = s := by
        unfold pySlice
        have hb : base + s.length - base = s.length := by omega
        rw [hb, hdrop]
        simp only [List.flatten_cons]
        exact List.take_left' rfl
      have hscan : scanOffsets (base + s.length) (s2 :: rest2) ++ [data.length]
          = (base + s.length) :: (scanOffsets (base + s.length + s2.length) rest2 ++ [data.length]) := by
        simp [scanOffsets]
      simp only [scanOffsets, List.cons_append]
      simp only [concatSlices]
      rw [← hscan, ih (base + s.length) hdrop', hslice]
      simp

/-- C9: for a synthetic archive built from any script list in the documented
layout (names valid for their slots, container below 2^32 bytes), the Archive
Reader recovers the script count, exactly the names in order, and exactly the
offset table; and the byte ranges `[offs[i], offs[i+1])` - with the container
length appended as sentinel - are contiguous by construction and concatenate
exactly to the original post-header bytes (the scripts' bytes). -/
theorem archive_round_trip (scripts : List (String × List Nat))
    (hnames : ∀ p ∈ scripts, validName p.1)
    (hsize : (buildArchive scripts).length < 4294967296) :
    read_script_count (buildArchive scripts) = scripts.length ∧
    read_script_names (buildArchive scripts) scripts.length 16 = .ok (scripts.map Prod.fst) ∧
    read_offsets (buildArchive scripts) scripts.length (16 + scripts.length * 260)
      = scanOffsets (16 + scripts.length * 260 + scripts.length * 4) (scripts.map Prod.snd) ∧
    concatSlices (buildArchive scripts)
      (read_offsets (buildArchive scripts) scripts.length (16 + scripts.length * 260)
        ++ [(buildArchive scripts).length])
      = (scripts.map Prod.snd).flatten := by
  have hC : (((scripts.map Prod.fst).map nameSlot).flatten).length = scripts.length * 260 := by
    rw [slots_flatten_length]
    · simp
    · intro nm hnm
      simp only [List.mem_map] at hnm
      obtain ⟨p, hp, rfl⟩ := hnm
      exact (hnames p hp).2.1
  have hD : (((scanOffsets (16 + scripts.length * 260 + scripts.length * 4)
        (scripts.map Prod.snd)).map natToLE4).flatten).length = scripts.length * 4 := by
    rw [le4_flatten_length, scanOffsets_length]
    simp
  have hassoc : buildArchive scripts =
      List.replicate 12 0 ++ (natToLE4 scripts.length ++
        (((scripts.map Prod.fst).map nameSlot).flatten ++
          ((((scanOffsets (16 + scripts.length * 260 + scripts.length * 4)
              (scripts.map Prod.snd)).map natToLE4).flatten) ++
            (scripts.map Prod.snd).flatten))) := by
    simp [buildArchive, List.append_assoc]
  have hdrop12 : (buildArchive scripts).drop 12 =
      natToLE4 scripts.length ++
        (((scripts.map Prod.fst).map nameSlot).flatten ++
          ((((scanOffsets (16 + scripts.length * 260 + scripts.length * 4)
              (scripts.map Prod.snd)).map natToLE4).flatten) ++
            (scripts.map Prod.snd).flatten)) := by
    rw [hassoc]
    exact List.drop_left' (by simp)
  have hdrop16 : (buildArchive scripts).drop 16 =
      ((scripts.map Prod.fst).map nameSlot).flatten ++
        ((((scanOffsets (16 + scripts.length * 260 + scripts.length * 4)
            (scripts.map Prod.snd)).map natToLE4).flatten) ++
          (scripts.map Prod.snd).flatten) := by
    conv_lhs => rw [show (16 : Nat) = 12 + 4 from rfl, ← List.drop_drop]
    rw [hdrop12]
    exact List.drop_left' (natToLE4_length _)
  have hdropNames : (buildArchive scripts).drop (16 + scripts.length * 260) =
      (((scanOffsets (16 + scripts.length * 260 + scripts.length * 4)
          (scripts.map Prod.snd)).map natToLE4).flatten) ++
        (scripts.map Prod.snd).flatten := by
    conv_lhs => rw [← List.drop_drop]
    rw [hdrop16]
    exact List.drop_left' hC
  have hdropBase : (buildArchive scripts).drop
      (16 + scripts.length * 260 + scripts.length * 4) =
      (scripts.map Prod.snd).flatten := by
    conv_lhs => rw [← List.drop_drop]
    rw [hdropNames]
    exact List.drop_left' hD
  have hlenData : (buildArchive scripts).length =
      16 + scripts.length * 260 + scripts.length * 4 +
        ((scripts.map Prod.snd).flatten).length := by
    rw [hassoc]
    simp only [List.length_append, List.length_replicate, natToLE4_length, hC, hD]
    omega
  have hn32 : scripts.length < 4294967296 := by
    rw [hlenData] at hsize
    omega
  have hcount : read_script_count (buildArchive scripts) = scripts.length := by
    unfold read_script_count pySlice
    rw [show (16 - 12 : Nat) = 4 from rfl, hdrop12]
    rw [List.take_left' (natToLE4_length _)]
    exact leBytesToNat_natToLE4 _ hn32
  have hnames2 : read_script_names (buildArchive scripts) scripts.length 16
      = .ok (scripts.map Prod.fst) := by
    unfold read_script_names
    have hlenfst : scripts.length = (scripts.map Prod.fst).length := by simp
    rw [hlenfst]
    apply readNamesAux_ok (buildArchive scripts) 16 (scripts.map Prod.fst) 0
      ((((scanOffsets (16 + scripts.length * 260 + scripts.length * 4)
          (scripts.map Prod.snd)).map natToLE4).flatten) ++
        (scripts.map Prod.snd).flatten)
    · simpa using hdrop16
    · intro p hp
      simp only [List.mem_map] at hp
      obtain ⟨q, hq, rfl⟩ := hp
      exact hnames q hq
  have hbound : ∀ o ∈ scanOffsets (16 + scripts.length * 260 + scripts.length * 4)
      (scripts.map Prod.snd), o < 4294967296 := by
    intro o ho
    have h1 := scanOffsets_le (scripts.map Prod.snd)
      (16 + scripts.length * 260 + scripts.length * 4) o ho
    rw [← hlenData] at h1
    omega
  have hoffs : read_offsets (buildArchive scripts) scripts.length
      (16 + scripts.length * 260)
      = scanOffsets (16 + scripts.length * 260 + scripts.length * 4)
          (scripts.map Prod.snd) := by
    unfold read_offsets
    have hdropO : (buildArchive scripts).drop (16 + scripts.length * 260 + 0 * 4) =
        (((scanOffsets (16 + scripts.length * 260 + scripts.length * 4)
            (scripts.map Prod.snd)).map natToLE4).flatten) ++
          (scripts.map Prod.snd).flatten := by
      simpa using hdropNames
    have key := readOffsetsAux_ok (buildArchive scripts) (16 + scripts.length * 260)
      (scanOffsets (16 + scripts.length * 260 + scripts.length * 4) (scripts.map Prod.snd))
      0 ((scripts.map Prod.snd).flatten) hdropO hbound
    rw [scanOffsets_length, List.length_map] at key
    exact key
  refine ⟨hcount, hnames2, hoffs, ?_⟩
  rw [hoffs]
  exact concatSlices_scan (buildArchive scripts) (scripts.map Prod.snd)
    (16 + scripts.length * 260 + scripts.length * 4) hdropBase

/-- A one-script demo archive for the round-trip witness. -/
def demoScripts : List (String × List Nat) :=
  [("A", [7, 8])]

/-- C9 witness: the round trip evaluated on a one-script archive. -/
theorem archive_round_trip_witness :
    (∀ p ∈ demoScripts, validName p.1) ∧
    (buildArchive demoScripts).length < 4294967296 ∧
    (read_script_count (buildArchive demoScripts) = demoScripts.length ∧
     read_script_names (buildArchive demoScripts) demoScripts.length 16
       = .ok (demoScripts.map Prod.fst) ∧
     read_offsets (buildArchive demoScripts) demoScripts.length
       (16 + demoScripts.length * 260)
       = scanOffsets (16 + demoScripts.length * 260 + demoScripts.length * 4)
           (demoScripts.map Prod.snd) ∧
     concatSlices (buildArchive demoScripts)
       (read_offsets (buildArchive demoScripts) demoScripts.length
         (16 + demoScripts.length * 260) ++ [(buildArchive demoScripts).length])
       = (demoScripts.map Prod.snd).flatten) :=
  ⟨by unfold validName; decide, by decide,
   archive_round_trip demoScripts (by unfold validName; decide) (by decide)⟩
